import Mathlib

/-!
Verification development for the declarative algorithm runner described by the
repository's specification.  The repository itself contains a single notebook
(`src/aqua/algorithm_introduction_with_vqe.ipynb`) that calls the external
qiskit-aqua library; the runner core (component registry, configuration
resolver, dependency assembler, execution facade, result contract) is not part
of the repository's own sources, so it is modelled here from the
specification's words.  The two-qubit Hamiltonian data (`pauli_dict`) is taken
verbatim from the notebook, and the numerical claims about its ground-state
energy are proved against an exact rational embedding of that operator.
-/

namespace Aqua

set_option maxRecDepth 8000

/-! ## The operator payload (from the notebook source) -/

/-- A weighted Pauli operator: a list of (real coefficient, Pauli label) pairs.
The notebook's `pauli_dict` has all imaginary parts zero, so coefficients are
modelled as rationals (the decimal literals of the source are exact
rationals). -/
structure WeightedPauliOperator where
  paulis : List (ℚ × String)
deriving DecidableEq

/-- `WeightedPauliOperator.from_dict` of the notebook (cell 2). -/
def WeightedPauliOperator.from_dict (d : List (ℚ × String)) : WeightedPauliOperator :=
  ⟨d⟩

/-- Number of qubits: the length of a Pauli label. -/
def WeightedPauliOperator.num_qubits (op : WeightedPauliOperator) : Nat :=
  ((op.paulis.head?).map (fun t => t.2.length)).getD 0

/-- The notebook's `pauli_dict` (cell 2, lines 50-57 of the source file):
the H2 Hamiltonian at 0.735A interatomic distance. -/
def pauli_dict : List (ℚ × String) :=
  [(-1.052373245772859, "II"),
   (0.39793742484318045, "ZI"),
   (-0.39793742484318045, "IZ"),
   (-0.01128010425623538, "ZZ"),
   (0.18093119978423156, "XX")]

/-- The notebook's `qubit_op` (cell 2). -/
def qubit_op : WeightedPauliOperator := WeightedPauliOperator.from_dict pauli_dict

/-- Single-qubit Pauli matrices over ℚ.  Only `I`, `X`, `Z` occur in the
notebook's labels (all coefficients are real); other characters map to the
zero matrix. -/
def pauliMat : Char → Matrix (Fin 2) (Fin 2) ℚ
  | 'X' => !![0, 1; 1, 0]
  | 'Z' => !![1, 0; 0, -1]
  | 'I' => !![1, 0; 0, 1]
  | _ => 0

/-- High bit of an index into a two-qubit state space. -/
def hi2 (i : Fin 4) : Fin 2 := ⟨i.val / 2, by have h := i.isLt; omega⟩

/-- Low bit of an index into a two-qubit state space. -/
def lo2 (i : Fin 4) : Fin 2 := ⟨i.val % 2, by omega⟩

/-- Kronecker product of two one-qubit matrices, with the leftmost label
character acting on the high bit. -/
def kron2 (A B : Matrix (Fin 2) (Fin 2) ℚ) : Matrix (Fin 4) (Fin 4) ℚ :=
  Matrix.of fun i j => A (hi2 i) (hi2 j) * B (lo2 i) (lo2 j)

/-- Matrix of a two-character Pauli label. -/
def pauliTerm (label : String) : Matrix (Fin 4) (Fin 4) ℚ :=
  match label.toList with
  | [c1, c0] => kron2 (pauliMat c1) (pauliMat c0)
  | _ => 0

/-- The matrix of a two-qubit weighted Pauli operator (exact rationals). -/
def toMatrix (op : WeightedPauliOperator) : Matrix (Fin 4) (Fin 4) ℚ :=
  (op.paulis.map fun t => t.1 • pauliTerm t.2).sum

/-! ## Data model of the declarative runner

Modelled from the spec: the runner core (sections 2-4 of the spec) is part of
the external qiskit-aqua library, not of this repository's sources, so the
definitions below follow the specification's words. -/

/-- Modelled from the spec: component kinds.  Section 6 of the spec lists the
top-level configuration keys `algorithm`, `variational_form`, `optimizer`,
`backend`, and the notebook additionally documents the omissible `problem`
section (cell 6 markdown). -/
inductive Kind where
  | problem
  | algorithm
  | variationalForm
  | optimizer
  | backend
deriving DecidableEq

/-- Parameter values appearing in configurations: strings and integers. -/
inductive Value where
  | s (v : String)
  | i (v : Int)
deriving DecidableEq

/-- A parameter map, as an association list from names to values. -/
abbrev Params : Type := List (String × Value)

/-- Modelled from the spec (section 4.2): merge supplied parameters over the
registry defaults — supplied values win, unset keys take defaults. -/
def mergeParams (supplied dflts : Params) : Params :=
  List.append supplied
    (dflts.filter fun kv => (List.lookup kv.1 supplied).isNone)

/-- Modelled from the spec (section 4.1): a registry entry carries the kind,
the registered name, the default parameters, whether the component requires an
execution context (quantum-family algorithms), and the dependent kinds it
needs. -/
structure RegistryEntry where
  kind : Kind
  name : String
  dflts : Params
  requiresContext : Bool
  dependencies : List Kind
deriving DecidableEq

/-- The registry: an explicit, statically enumerable mapping (spec section 9). -/
abbrev Registry : Type := List RegistryEntry

/-- Modelled from the spec (section 7): the eight declared error kinds, each
carrying the (kind, name) or field identifying the failure point. -/
inductive RunError where
  | unknownComponent (kind : Kind) (name : String)
  | duplicateRegistration (kind : Kind) (name : String)
  | ambiguousDependency (kind : Kind)
  | missingRequiredSection (kind : Kind)
  | componentConstruction (kind : Kind) (name : String)
  | missingExecutionContext (algName : String)
  | algorithmExecution (algName : String) (msg : String)
  | incompleteResult (field : String)
deriving DecidableEq

/-- Modelled from the spec (section 4.1): `register` adds an entry and fails
with `DuplicateRegistrationError` if the (kind, name) pair is already
present. -/
def register (reg : Registry) (e : RegistryEntry) : Except RunError Registry :=
  if (reg.filter fun x => x.kind = e.kind ∧ x.name = e.name).isEmpty then
    Except.ok (List.append reg [e])
  else
    Except.error (RunError.duplicateRegistration e.kind e.name)

/-- Look up a registry entry by kind and name. -/
def lookupEntry (k : Kind) (n : String) : Registry → Option RegistryEntry
  | [] => none
  | e :: rest => if e.kind = k ∧ e.name = n then some e else lookupEntry k n rest

/-- A configuration section: a kind, an optional component name (falling back
to the kind's declared default name), and supplied parameters. -/
structure ConfigSection where
  kind : Kind
  name : Option String
  params : Params
deriving DecidableEq

/-- Modelled from the spec (section 6): a configuration is nested key-value
data, one section per component kind.  Lists of sections admit the duplicate
sections needed for the `AmbiguousDependencyError` scenario of section 8. -/
abbrev Configuration : Type := List ConfigSection

/-- Modelled from the spec (section 3): each kind's declared default component
name.  The notebook documents `problem` defaulting to `energy` (cell 6) and
defaults for the VQE-dependent components (cell 8). -/
def defaultNameOf : Kind → Option String
  | Kind.problem => some "energy"
  | Kind.variationalForm => some "RYRZ"
  | Kind.optimizer => some "L_BFGS_B"
  | _ => none

/-- A resolved component spec: registry data with merged parameters. -/
structure ResolvedSpec where
  kind : Kind
  name : String
  params : Params
  requiresContext : Bool
  dependencies : List Kind
deriving DecidableEq

/-- Sections of a given kind occurring in a configuration. -/
def sectionsOf (k : Kind) : Configuration → List ConfigSection
  | [] => []
  | sec :: rest =>
    if sec.kind = k then sec :: sectionsOf k rest else sectionsOf k rest

/-- Modelled from the spec (section 4.2): resolve one section — find the
(kind, name) entry, failing with `UnknownComponentError` if absent, and merge
supplied parameters over the registry defaults. -/
def resolveSection (reg : Registry) (sec : ConfigSection) : Except RunError ResolvedSpec :=
  match sec.name.orElse (fun _ => defaultNameOf sec.kind) with
  | none => Except.error (RunError.missingRequiredSection sec.kind)
  | some n =>
    match lookupEntry sec.kind n reg with
    | none => Except.error (RunError.unknownComponent sec.kind n)
    | some entry =>
      Except.ok ⟨sec.kind, n, mergeParams sec.params entry.dflts,
        entry.requiresContext, entry.dependencies⟩

/-- Modelled from the spec (section 4.2): resolve a possibly-omitted kind.
If no section of the kind exists and the kind is omissible, substitute the
registry default; several candidate sections fail with
`AmbiguousDependencyError`. -/
def resolveOpt (reg : Registry) (cfg : Configuration) (k : Kind) :
    Except RunError (Option ResolvedSpec) :=
  match sectionsOf k cfg with
  | [] =>
    match defaultNameOf k with
    | some n =>
      match resolveSection reg ⟨k, some n, []⟩ with
      | Except.error e => Except.error e
      | Except.ok spec => Except.ok (some spec)
    | none => Except.ok none
  | [sec] =>
    match resolveSection reg sec with
    | Except.error e => Except.error e
    | Except.ok spec => Except.ok (some spec)
  | _ => Except.error (RunError.ambiguousDependency k)

/-- Modelled from the spec (section 4.2): resolve a required dependent kind,
failing with `MissingRequiredSectionError` when it has no section and no
default. -/
def resolveDepKind (reg : Registry) (cfg : Configuration) (k : Kind) :
    Except RunError ResolvedSpec :=
  match resolveOpt reg cfg k with
  | Except.error e => Except.error e
  | Except.ok none => Except.error (RunError.missingRequiredSection k)
  | Except.ok (some spec) => Except.ok spec

/-- Resolve the root algorithm section. -/
def resolveAlg (reg : Registry) (cfg : Configuration) : Except RunError ResolvedSpec :=
  match sectionsOf Kind.algorithm cfg with
  | [] => Except.error (RunError.missingRequiredSection Kind.algorithm)
  | [sec] => resolveSection reg sec
  | _ => Except.error (RunError.ambiguousDependency Kind.algorithm)

/-- Resolve each dependent kind of the algorithm. -/
def resolveDeps (reg : Registry) (cfg : Configuration) :
    List Kind → Except RunError (List ResolvedSpec)
  | [] => Except.ok []
  | k :: ks =>
    match resolveDepKind reg cfg k with
    | Except.error e => Except.error e
    | Except.ok spec =>
      match resolveDeps reg cfg ks with
      | Except.error e => Except.error e
      | Except.ok rest => Except.ok (spec :: rest)

/-- The output of resolution: the problem type, the root algorithm, its
dependent components, and the optional backend. -/
structure Resolution where
  problem : ResolvedSpec
  algorithm : ResolvedSpec
  deps : List ResolvedSpec
  backend : Option ResolvedSpec
deriving DecidableEq

/-- Modelled from the spec (section 4.2): the configuration resolver. -/
def resolve (reg : Registry) (cfg : Configuration) : Except RunError Resolution :=
  match resolveDepKind reg cfg Kind.problem with
  | Except.error e => Except.error e
  | Except.ok prob =>
    match resolveAlg reg cfg with
    | Except.error e => Except.error e
    | Except.ok alg =>
      match resolveDeps reg cfg alg.dependencies with
      | Except.error e => Except.error e
      | Except.ok ds =>
        match resolveOpt reg cfg Kind.backend with
        | Except.error e => Except.error e
        | Except.ok bk => Except.ok ⟨prob, alg, ds, bk⟩

/-- A constructed component: its kind, name and parameters. -/
abbrev Component : Type := Kind × String × Params

/-- Modelled from the spec (sections 3 and 4.3): invoke a component factory.
Unknown parameter keys are rejected, surfacing as
`ComponentConstructionError` naming the (kind, name) that failed. -/
def construct (reg : Registry) (spec : ResolvedSpec) : Except RunError Component :=
  match lookupEntry spec.kind spec.name reg with
  | none => Except.error (RunError.unknownComponent spec.kind spec.name)
  | some entry =>
    if spec.params.all fun kv => (List.lookup kv.1 entry.dflts).isSome then
      Except.ok (spec.kind, spec.name, spec.params)
    else Except.error (RunError.componentConstruction spec.kind spec.name)

/-- Construct the optional backend component (first, per section 4.3). -/
def constructBackend (reg : Registry) : Option ResolvedSpec → Except RunError (Option Component)
  | none => Except.ok none
  | some b =>
    match construct reg b with
    | Except.error e => Except.error e
    | Except.ok c => Except.ok (some c)

/-- Construct the dependent components. -/
def constructDeps (reg : Registry) : List ResolvedSpec → Except RunError (List Component)
  | [] => Except.ok []
  | spec :: rest =>
    match construct reg spec with
    | Except.error e => Except.error e
    | Except.ok c =>
      match constructDeps reg rest with
      | Except.error e => Except.error e
      | Except.ok cs => Except.ok (c :: cs)

/-- The assembled root algorithm with its injected dependencies. -/
structure AssembledAlgorithm where
  name : String
  params : Params
  deps : List Component
  requiresContext : Bool
  backend : Option Component
deriving DecidableEq

/-- Modelled from the spec (section 4.3): the dependency assembler;
construction order is dependency-first (backend, then dependents, then the
algorithm). -/
def assemble (reg : Registry) (res : Resolution) : Except RunError AssembledAlgorithm :=
  match constructBackend reg res.backend with
  | Except.error e => Except.error e
  | Except.ok bk =>
    match constructDeps reg res.deps with
    | Except.error e => Except.error e
    | Except.ok ds =>
      match construct reg res.algorithm with
      | Except.error e => Except.error e
      | Except.ok c => Except.ok ⟨c.2.1, c.2.2, ds, res.algorithm.requiresContext, bk⟩

/-- A result record: named fields mapped to real values (spec section 3). -/
abbrev ResultRecord : Type := List (String × ℝ)

/-- Modelled from the spec (section 4.5): the core fields mandated for a
problem type — for an energy problem, `energy`. -/
def coreFieldsOf (problemName : String) : List String :=
  if problemName = "energy" then ["energy"] else []

/-- Modelled from the spec (section 4.5): verify the core-field set is present
in the raw result, failing with `IncompleteResultError`; extra fields pass
through unchanged and no field value is altered. -/
def normalize (core : List String) (raw : ResultRecord) : Except RunError ResultRecord :=
  match core.find? fun f => (List.lookup f raw).isNone with
  | some f => Except.error (RunError.incompleteResult f)
  | none => Except.ok raw

/-- An algorithm semantics: what the external algorithm computes, given its
name, merged parameters, injected dependent components, the opaque input
payload and the optional execution context. -/
abbrev AlgSemantics (α : Type) : Type :=
  String → Params → List Component → α → Option Component → Except String ResultRecord

/-- Modelled from the spec (section 4.4): the execution facade.  A root
component requiring an execution context with none resolved fails with
`MissingExecutionContextError`; a failure inside the algorithm propagates as
`AlgorithmExecutionError`; the raw result is normalized against the problem
type's core fields. -/
def facadeRun {α : Type} (sem : AlgSemantics α) (root : AssembledAlgorithm)
    (input : α) (core : List String) : Except RunError ResultRecord :=
  if root.requiresContext = true ∧ root.backend = none then
    Except.error (RunError.missingExecutionContext root.name)
  else
    match sem root.name root.params root.deps input root.backend with
    | Except.error msg => Except.error (RunError.algorithmExecution root.name msg)
    | Except.ok raw => normalize core raw

/-- Modelled from the spec (sections 2 and 8): the declarative entry point —
resolve, assemble, then run through the execution facade. -/
def runWith {α : Type} (sem : AlgSemantics α) (reg : Registry) (cfg : Configuration)
    (input : α) : Except RunError ResultRecord :=
  match resolve reg cfg with
  | Except.error e => Except.error e
  | Except.ok res =>
    match assemble reg res with
    | Except.error e => Except.error e
    | Except.ok root => facadeRun sem root input (coreFieldsOf res.problem.name)

/-! ## The concrete components used by the notebook -/

/-- Modelled from the spec (section 9) and the notebook: the registry entries
for the components the notebook uses, registered once at process-wide
initialization. -/
def aquaEntries : List RegistryEntry :=
  [⟨Kind.problem, "energy", [], false, []⟩,
   ⟨Kind.algorithm, "ExactEigensolver", [("k", Value.i 1)], false, []⟩,
   ⟨Kind.algorithm, "VQE", [("operator_mode", Value.s "matrix")], true,
     [Kind.variationalForm, Kind.optimizer]⟩,
   ⟨Kind.variationalForm, "RYRZ",
     [("depth", Value.i 3), ("entanglement", Value.s "full")], false, []⟩,
   ⟨Kind.optimizer, "L_BFGS_B", [("maxfun", Value.i 1000)], false, []⟩,
   ⟨Kind.backend, "statevector_simulator",
     [("provider", Value.s "qiskit.BasicAer")], false, []⟩]

/-- Build the registry by registering every entry in order, starting from the
empty registry (write-once at initialization, spec section 4.1). -/
def buildAquaRegistry : Except RunError Registry :=
  aquaEntries.foldlM register ([] : Registry)

/-- The frozen registry used during execution. -/
def aquaRegistry : Registry := aquaEntries

/-! ### Energies of the notebook's Hamiltonian

The interesting 2x2 block of the Hamiltonian couples the basis states 01 and
10; its smaller eigenvalue is the ground-state energy.  `exactEnergy` is that
closed form; the theorems below prove it is genuinely the least eigenvalue of
`toMatrix qubit_op`. -/

/-- The operator matrix with entries cast to ℝ. -/
noncomputable def hamMatrix (op : WeightedPauliOperator) : Matrix (Fin 4) (Fin 4) ℝ :=
  (toMatrix op).map fun q => (q : ℝ)

/-- Modelled from the spec: `ExactEigensolver` computes the minimum eigenvalue
of the operator.  For operators with the notebook's block structure this is
the closed form below; the development proves it is the least eigenvalue of
`hamMatrix qubit_op`. -/
noncomputable def exactEnergy (op : WeightedPauliOperator) : ℝ :=
  (hamMatrix op 1 1 + hamMatrix op 2 2) / 2 -
    Real.sqrt (((hamMatrix op 1 1 - hamMatrix op 2 2) / 2) ^ 2 + hamMatrix op 1 2 ^ 2)

/-- The set of energy expectations of normalized states (Rayleigh quotients). -/
def rayleighSet (op : WeightedPauliOperator) : Set ℝ :=
  {x : ℝ | ∃ v : Fin 4 → ℝ,
    Matrix.dotProduct v v = 1 ∧ x = Matrix.dotProduct v ((hamMatrix op).mulVec v)}

/-- Modelled from the spec: the VQE scenario of spec section 8 states the
variational loop on the statevector simulator converges to the minimum of the
energy expectation; the idealized converged VQE value is that minimum over all
normalized statevectors (real amplitudes suffice for this real symmetric
Hamiltonian). -/
noncomputable def vqeEnergy (op : WeightedPauliOperator) : ℝ :=
  sInf (rayleighSet op)

/-- The `ExactEigensolver` class of the notebook (programmatic entry point):
constructed from the operator, `run` returns the result dictionary. -/
structure ExactEigensolver where
  operator : WeightedPauliOperator

/-- Modelled from the spec: a successful classical run returns the record with
the problem's core field `energy`. -/
noncomputable def ExactEigensolver.run (ee : ExactEigensolver) : ResultRecord :=
  [("energy", exactEnergy ee.operator)]

/-- The `RYRZ` variational form (programmatic construction of the notebook). -/
structure RYRZ where
  num_qubits : Nat
  depth : Nat
  entanglement : String
deriving DecidableEq

/-- The `L_BFGS_B` optimizer. -/
structure L_BFGS_B where
  maxfun : Nat
deriving DecidableEq

/-- A `QuantumInstance`: a backend together with a transpiler pass manager. -/
structure QuantumInstance where
  backend : String
  pass_manager : List String
deriving DecidableEq

/-- The default transpiler `PassManager()` of the notebook (cell 13): no
custom passes. -/
def defaultPassManager : List String := []

/-- The argument accepted by a quantum algorithm's `run`: either a raw backend
or an explicit `QuantumInstance` (notebook cell 12 markdown). -/
inductive BackendArg where
  | raw (name : String)
  | qinst (qi : QuantumInstance)
deriving DecidableEq

/-- Modelled from the spec (notebook cell 12 markdown): a raw backend passed
to `run` is detected and wrapped as a `QuantumInstance` with a default
transpiler pass manager. -/
def toQuantumInstance : BackendArg → QuantumInstance
  | BackendArg.raw n => ⟨n, defaultPassManager⟩
  | BackendArg.qinst qi => qi

/-- The `VQE` class of the notebook: operator, variational form, optimizer. -/
structure VQE where
  operator : WeightedPauliOperator
  var_form : RYRZ
  optimizer : L_BFGS_B

/-- Modelled from the spec: VQE on the statevector simulator computes the
converged variational minimum; only that backend is exercised by the
notebook, so other substrates are outside the model. -/
noncomputable def VQE.runQI (v : VQE) (qi : QuantumInstance) : Except String ResultRecord :=
  if qi.backend = "statevector_simulator" then
    Except.ok [("energy", vqeEnergy v.operator)]
  else Except.error "backend not modelled"

/-- The programmatic `run` of VQE: a raw backend is wrapped internally. -/
noncomputable def VQE.run (v : VQE) (arg : BackendArg) : Except String ResultRecord :=
  v.runQI (toQuantumInstance arg)

/-- The `EnergyInput` payload class (notebook cell 4). -/
structure EnergyInput where
  qubitOp : WeightedPauliOperator

/-- Parameter extraction helpers for the declarative path. -/
def getNat (p : Params) (key : String) (dflt : Nat) : Nat :=
  match List.lookup key p with
  | some (Value.i n) => n.toNat
  | _ => dflt

def getStr (p : Params) (key : String) (dflt : String) : String :=
  match List.lookup key p with
  | some (Value.s v) => v
  | _ => dflt

/-- Parameters of the dependent component of a given kind. -/
def depParams : List Component → Kind → Params
  | [], _ => []
  | d :: rest, k => if d.1 = k then d.2.2 else depParams rest k

/-- Modelled from the spec: the semantics of the registered algorithms — the
declarative path funnels into the same component classes as the programmatic
path (spec section 9, duality note). -/
noncomputable def aquaSem : AlgSemantics EnergyInput := fun name _params deps input ctx =>
  if name = "ExactEigensolver" then
    Except.ok (ExactEigensolver.run ⟨input.qubitOp⟩)
  else if name = "VQE" then
    match ctx with
    | none => Except.error "missing backend"
    | some b =>
      let vf : RYRZ := ⟨input.qubitOp.num_qubits,
        getNat (depParams deps Kind.variationalForm) "depth" 3,
        getStr (depParams deps Kind.variationalForm) "entanglement" "full"⟩
      let opt : L_BFGS_B := ⟨getNat (depParams deps Kind.optimizer) "maxfun" 1000⟩
      (VQE.mk input.qubitOp vf opt).run (BackendArg.raw b.2.1)
  else Except.error "no semantics registered"

/-- The notebook's `run_algorithm` (declarative entry point). -/
noncomputable def run_algorithm (cfg : Configuration) (input : EnergyInput) :
    Except RunError ResultRecord :=
  runWith aquaSem aquaRegistry cfg input

/-- The notebook's ExactEigensolver configuration (cell 5):
`{algorithm: {name: "ExactEigensolver"}}`. -/
def eeCfg : Configuration :=
  [⟨Kind.algorithm, some "ExactEigensolver", []⟩]

/-- The notebook's VQE configuration (cell 8). -/
def vqeCfg : Configuration :=
  [⟨Kind.algorithm, some "VQE", [("operator_mode", Value.s "matrix")]⟩,
   ⟨Kind.variationalForm, some "RYRZ",
     [("depth", Value.i 3), ("entanglement", Value.s "linear")]⟩,
   ⟨Kind.optimizer, some "L_BFGS_B", [("maxfun", Value.i 1000)]⟩,
   ⟨Kind.backend, some "statevector_simulator",
     [("provider", Value.s "qiskit.BasicAer")]⟩]

/-- The VQE configuration with the `backend` section omitted (spec section 8
scenario: quantum-family algorithm without an execution context). -/
def vqeCfgNoBackend : Configuration :=
  [⟨Kind.algorithm, some "VQE", [("operator_mode", Value.s "matrix")]⟩,
   ⟨Kind.variationalForm, some "RYRZ",
     [("depth", Value.i 3), ("entanglement", Value.s "linear")]⟩,
   ⟨Kind.optimizer, some "L_BFGS_B", [("maxfun", Value.i 1000)]⟩]

/-- Decidable equality of `Except` results, used to evaluate the pipeline on
concrete configurations. -/
instance {ε α : Type} [DecidableEq ε] [DecidableEq α] : DecidableEq (Except ε α) :=
  fun x y =>
  match x, y with
  | Except.ok a, Except.ok b =>
    if h : a = b then Decidable.isTrue (h ▸ rfl)
    else Decidable.isFalse fun hc => h (Except.ok.inj hc)
  | Except.error e, Except.error f =>
    if h : e = f then Decidable.isTrue (h ▸ rfl)
    else Decidable.isFalse fun hc => h (Except.error.inj hc)
  | Except.ok _, Except.error _ => Decidable.isFalse fun hc => Except.noConfusion hc
  | Except.error _, Except.ok _ => Decidable.isFalse fun hc => Except.noConfusion hc

/-! ### Spectral data of the notebook's Hamiltonian

The matrix of `qubit_op` is block diagonal: the basis states 01 and 10 are
coupled by the XX term, and the states 00 and 11 are coupled by the XX term.
`muR` and `deltaR` are the mean and half-difference of the diagonal of the
01/10 block, and `muR - sVal` is that block's smaller eigenvalue — the ground
state energy. -/

/-- Mean of the diagonal of the middle block. -/
noncomputable def muR : ℝ := (hamMatrix qubit_op 1 1 + hamMatrix qubit_op 2 2) / 2

/-- Half-difference of the diagonal of the middle block. -/
noncomputable def deltaR : ℝ := (hamMatrix qubit_op 1 1 - hamMatrix qubit_op 2 2) / 2

/-- The square-root discriminant of the middle block. -/
noncomputable def sVal : ℝ := Real.sqrt (deltaR ^ 2 + hamMatrix qubit_op 1 2 ^ 2)

/-- An (unnormalized) eigenvector of the ground-state energy. -/
noncomputable def groundVec : Fin 4 → ℝ := fun i =>
  match i with
  | 1 => (0.18093119978423156 : ℝ)
  | 2 => -deltaR - sVal
  | _ => 0

/-- The matrix of `qubit_op` written out with its entries as real literals. -/
noncomputable def hMatLit : Matrix (Fin 4) (Fin 4) ℝ :=
  Matrix.of fun i j =>
    match i, j with
    | 0, 0 => (-1.06365335002909438 : ℝ)
    | 1, 1 => (-0.24521829183026272 : ℝ)
    | 2, 2 => (-1.83696799120298452 : ℝ)
    | 3, 3 => (-1.06365335002909438 : ℝ)
    | 0, 3 => (0.18093119978423156 : ℝ)
    | 3, 0 => (0.18093119978423156 : ℝ)
    | 1, 2 => (0.18093119978423156 : ℝ)
    | 2, 1 => (0.18093119978423156 : ℝ)
    | _, _ => 0

/-- The resolution of the ExactEigensolver configuration. -/
def eeRes : Resolution :=
  ⟨⟨Kind.problem, "energy", [], false, []⟩,
   ⟨Kind.algorithm, "ExactEigensolver", [("k", Value.i 1)], false, []⟩,
   [], none⟩

/-- The resolution of the VQE configuration. -/
def vqeRes : Resolution :=
  ⟨⟨Kind.problem, "energy", [], false, []⟩,
   ⟨Kind.algorithm, "VQE", [("operator_mode", Value.s "matrix")], true,
     [Kind.variationalForm, Kind.optimizer]⟩,
   [⟨Kind.variationalForm, "RYRZ",
      [("depth", Value.i 3), ("entanglement", Value.s "linear")], false, []⟩,
    ⟨Kind.optimizer, "L_BFGS_B", [("maxfun", Value.i 1000)], false, []⟩],
   some ⟨Kind.backend, "statevector_simulator",
     [("provider", Value.s "qiskit.BasicAer")], false, []⟩⟩

/-- The assembled root of the VQE configuration without a backend section. -/
def vqeRootNoBackend : AssembledAlgorithm :=
  ⟨"VQE", [("operator_mode", Value.s "matrix")],
   [(Kind.variationalForm, "RYRZ",
      [("depth", Value.i 3), ("entanglement", Value.s "linear")]),
    (Kind.optimizer, "L_BFGS_B", [("maxfun", Value.i 1000)])],
   true, none⟩

/-- The resolution of the VQE configuration without a backend section. -/
def vqeResNoBackend : Resolution :=
  ⟨⟨Kind.problem, "energy", [], false, []⟩,
   ⟨Kind.algorithm, "VQE", [("operator_mode", Value.s "matrix")], true,
     [Kind.variationalForm, Kind.optimizer]⟩,
   [⟨Kind.variationalForm, "RYRZ",
      [("depth", Value.i 3), ("entanglement", Value.s "linear")], false, []⟩,
    ⟨Kind.optimizer, "L_BFGS_B", [("maxfun", Value.i 1000)], false, []⟩],
   none⟩

/-! ## Theorems -/

/-! ### Entries of the Hamiltonian matrix -/

theorem pauliMat_I : pauliMat 'I' = !![1, 0; 0, 1] := rfl

theorem pauliMat_X : pauliMat 'X' = !![0, 1; 1, 0] := rfl

theorem pauliMat_Z : pauliMat 'Z' = !![1, 0; 0, -1] := rfl

theorem pt_II : pauliTerm "II" = kron2 (pauliMat 'I') (pauliMat 'I') := rfl

theorem pt_ZI : pauliTerm "ZI" = kron2 (pauliMat 'Z') (pauliMat 'I') := rfl

theorem pt_IZ : pauliTerm "IZ" = kron2 (pauliMat 'I') (pauliMat 'Z') := rfl

theorem pt_ZZ : pauliTerm "ZZ" = kron2 (pauliMat 'Z') (pauliMat 'Z') := rfl

theorem pt_XX : pauliTerm "XX" = kron2 (pauliMat 'X') (pauliMat 'X') := rfl

theorem hi2_0 : hi2 0 = 0 := rfl

theorem hi2_1 : hi2 1 = 0 := rfl

theorem hi2_2 : hi2 2 = 1 := rfl

theorem hi2_3 : hi2 3 = 1 := rfl

theorem lo2_0 : lo2 0 = 0 := rfl

theorem lo2_1 : lo2 1 = 1 := rfl

theorem lo2_2 : lo2 2 = 0 := rfl

theorem lo2_3 : lo2 3 = 1 := rfl

theorem fin4_mk0 (h : 0 < 4) : (⟨0, h⟩ : Fin 4) = 0 := rfl

theorem fin4_mk1 (h : 1 < 4) : (⟨1, h⟩ : Fin 4) = 1 := rfl

theorem fin4_mk2 (h : 2 < 4) : (⟨2, h⟩ : Fin 4) = 2 := rfl

theorem fin4_mk3 (h : 3 < 4) : (⟨3, h⟩ : Fin 4) = 3 := rfl

/-- The matrix of the notebook's operator, computed entrywise from the Pauli
terms of `pauli_dict`. -/
theorem hamMatrix_qubit_op : hamMatrix qubit_op = hMatLit := by
  funext i j
  fin_cases i <;> fin_cases j <;>
    (simp only [fin4_mk0, fin4_mk1, fin4_mk2, fin4_mk3, hamMatrix, Matrix.map_apply,
      toMatrix, qubit_op, WeightedPauliOperator.from_dict, pauli_dict, List.map_cons,
      List.map_nil, List.sum_cons, List.sum_nil, Matrix.add_apply, Matrix.smul_apply,
      Matrix.zero_apply, pt_II, pt_ZI, pt_IZ, pt_ZZ, pt_XX, kron2,
      Matrix.of_apply, hi2_0, hi2_1, hi2_2, hi2_3, lo2_0, lo2_1, lo2_2, lo2_3,
      pauliMat_I, pauliMat_X, pauliMat_Z, Matrix.cons_val_zero, Matrix.cons_val_one,
      Matrix.head_cons, smul_eq_mul, hMatLit]
     norm_num)

theorem hm00 : hamMatrix qubit_op 0 0 = (-1.06365335002909438 : ℝ) := by
  rw [hamMatrix_qubit_op]; rfl

theorem hm01 : hamMatrix qubit_op 0 1 = 0 := by rw [hamMatrix_qubit_op]; rfl

theorem hm02 : hamMatrix qubit_op 0 2 = 0 := by rw [hamMatrix_qubit_op]; rfl

theorem hm03 : hamMatrix qubit_op 0 3 = (0.18093119978423156 : ℝ) := by
  rw [hamMatrix_qubit_op]; rfl

theorem hm10 : hamMatrix qubit_op 1 0 = 0 := by rw [hamMatrix_qubit_op]; rfl

theorem hm11 : hamMatrix qubit_op 1 1 = (-0.24521829183026272 : ℝ) := by
  rw [hamMatrix_qubit_op]; rfl

theorem hm12 : hamMatrix qubit_op 1 2 = (0.18093119978423156 : ℝ) := by
  rw [hamMatrix_qubit_op]; rfl

theorem hm13 : hamMatrix qubit_op 1 3 = 0 := by rw [hamMatrix_qubit_op]; rfl

theorem hm20 : hamMatrix qubit_op 2 0 = 0 := by rw [hamMatrix_qubit_op]; rfl

theorem hm21 : hamMatrix qubit_op 2 1 = (0.18093119978423156 : ℝ) := by
  rw [hamMatrix_qubit_op]; rfl

theorem hm22 : hamMatrix qubit_op 2 2 = (-1.83696799120298452 : ℝ) := by
  rw [hamMatrix_qubit_op]; rfl

theorem hm23 : hamMatrix qubit_op 2 3 = 0 := by rw [hamMatrix_qubit_op]; rfl

theorem hm30 : hamMatrix qubit_op 3 0 = (0.18093119978423156 : ℝ) := by
  rw [hamMatrix_qubit_op]; rfl

theorem hm31 : hamMatrix qubit_op 3 1 = 0 := by rw [hamMatrix_qubit_op]; rfl

theorem hm32 : hamMatrix qubit_op 3 2 = 0 := by rw [hamMatrix_qubit_op]; rfl

theorem hm33 : hamMatrix qubit_op 3 3 = (-1.06365335002909438 : ℝ) := by
  rw [hamMatrix_qubit_op]; rfl

/-! ### Numerical bounds on the ground-state energy -/

theorem muR_eq : muR = (-1.04109314151662362 : ℝ) := by
  rw [muR, hm11, hm22]; norm_num

theorem deltaR_eq : deltaR = (0.79587484968636090 : ℝ) := by
  rw [deltaR, hm11, hm22]; norm_num

theorem sVal_sq : sVal ^ 2 =
    (0.79587484968636090 : ℝ) ^ 2 + (0.18093119978423156 : ℝ) ^ 2 := by
  rw [sVal, deltaR_eq, hm12]
  exact Real.sq_sqrt (by positivity)

theorem sVal_lb : (0.8161818 : ℝ) ≤ sVal := by
  rw [sVal, deltaR_eq, hm12]
  have h : ((0.8161818 : ℝ)) = Real.sqrt ((0.8161818 : ℝ) ^ 2) :=
    (Real.sqrt_sq (by norm_num)).symm
  rw [h]
  exact Real.sqrt_le_sqrt (by norm_num)

theorem sVal_ub : sVal ≤ (0.8161820 : ℝ) := by
  rw [sVal, deltaR_eq, hm12]
  have h : ((0.8161820 : ℝ)) = Real.sqrt ((0.8161820 : ℝ) ^ 2) :=
    (Real.sqrt_sq (by norm_num)).symm
  rw [h]
  exact Real.sqrt_le_sqrt (by norm_num)

theorem exactEnergy_closed : exactEnergy qubit_op = muR - sVal := rfl

theorem exactEnergy_near : |exactEnergy qubit_op + 1.857275| < 0.000001 := by
  rw [exactEnergy_closed, muR_eq, abs_lt]
  constructor <;> nlinarith [sVal_lb, sVal_ub]

/-! ### The closed form is the least eigenvalue -/

theorem groundVec_0 : groundVec 0 = 0 := rfl

theorem groundVec_1 : groundVec 1 = (0.18093119978423156 : ℝ) := rfl

theorem groundVec_2 : groundVec 2 = -deltaR - sVal := rfl

theorem groundVec_3 : groundVec 3 = 0 := rfl

theorem groundVec_ne : groundVec ≠ 0 := by
  intro h
  have h1 := congrFun h 1
  rw [groundVec_1] at h1
  norm_num at h1

/-- `groundVec` is an eigenvector of the operator matrix with eigenvalue
`exactEnergy qubit_op`. -/
theorem eigen_eq :
    (hamMatrix qubit_op).mulVec groundVec = exactEnergy qubit_op • groundVec := by
  funext i
  rw [exactEnergy_closed]
  fin_cases i <;>
    simp only [Matrix.mulVec, Matrix.dotProduct, Fin.sum_univ_four, Fin.isValue,
      fin4_mk0, fin4_mk1, fin4_mk2, fin4_mk3,
      hm00, hm01, hm02, hm03, hm10, hm11, hm12, hm13, hm20, hm21, hm22, hm23,
      hm30, hm31, hm32, hm33, groundVec_0, groundVec_1, groundVec_2, groundVec_3,
      Pi.smul_apply, smul_eq_mul, deltaR_eq, muR_eq]
  · ring
  · ring_nf
  · linear_combination (-1 : ℝ) * sVal_sq
  · ring

/-- Positivity of the outer (00/11) block shifted by the ground energy. -/
theorem blockPos1 (s x y : ℝ) (hs : (0.8161818 : ℝ) ≤ s) :
    0 ≤ (s - 0.02256020851247076) * (x ^ 2 + y ^ 2) + 2 * 0.18093119978423156 * (x * y) := by
  nlinarith [sq_nonneg (x + y), sq_nonneg (x - y), sq_nonneg x, sq_nonneg y,
    mul_nonneg (show (0 : ℝ) ≤ s - 0.8161818 by linarith)
      (show (0 : ℝ) ≤ x ^ 2 + y ^ 2 by positivity)]

/-- Positivity of the middle (01/10) block shifted by the ground energy. -/
theorem blockPos2 (s x y : ℝ) (hs : (0.8161818 : ℝ) ≤ s)
    (hsq : s ^ 2 = (0.79587484968636090 : ℝ) ^ 2 + (0.18093119978423156 : ℝ) ^ 2) :
    0 ≤ (0.79587484968636090 + s) * x ^ 2 + 2 * 0.18093119978423156 * (x * y) +
        (s - 0.79587484968636090) * y ^ 2 := by
  have hpos : (0 : ℝ) < 0.79587484968636090 + s := by linarith
  have h1 : (0.79587484968636090 + s) *
      ((0.79587484968636090 + s) * x ^ 2 + 2 * 0.18093119978423156 * (x * y) +
        (s - 0.79587484968636090) * y ^ 2) =
      ((0.79587484968636090 + s) * x + 0.18093119978423156 * y) ^ 2 +
        (s ^ 2 - (0.79587484968636090 : ℝ) ^ 2 - (0.18093119978423156 : ℝ) ^ 2) * y ^ 2 := by
    ring
  have h2 : s ^ 2 - (0.79587484968636090 : ℝ) ^ 2 - (0.18093119978423156 : ℝ) ^ 2 = 0 := by
    rw [hsq]; ring
  rw [h2] at h1
  have h3 : 0 ≤ (0.79587484968636090 + s) *
      ((0.79587484968636090 + s) * x ^ 2 + 2 * 0.18093119978423156 * (x * y) +
        (s - 0.79587484968636090) * y ^ 2) := by
    rw [h1]; positivity
  by_contra hneg
  push_neg at hneg
  nlinarith [mul_pos hpos (show (0 : ℝ) < -((0.79587484968636090 + s) * x ^ 2 +
    2 * 0.18093119978423156 * (x * y) + (s - 0.79587484968636090) * y ^ 2) by linarith)]

/-- The matrix shifted by the ground energy is positive semidefinite: the
closed form is a lower bound on every Rayleigh quotient. -/
theorem psd (v : Fin 4 → ℝ) :
    exactEnergy qubit_op * Matrix.dotProduct v v ≤
      Matrix.dotProduct v ((hamMatrix qubit_op).mulVec v) := by
  rw [exactEnergy_closed, muR_eq]
  simp only [Matrix.mulVec, Matrix.dotProduct, Fin.sum_univ_four, Fin.isValue,
    hm00, hm01, hm02, hm03, hm10, hm11, hm12, hm13, hm20, hm21, hm22, hm23,
    hm30, hm31, hm32, hm33]
  nlinarith [blockPos1 sVal (v 0) (v 3) sVal_lb, blockPos2 sVal (v 1) (v 2) sVal_lb sVal_sq]

theorem dot_self_pos (v : Fin 4 → ℝ) (hv : v ≠ 0) : 0 < Matrix.dotProduct v v := by
  rcases lt_or_eq_of_le (show (0 : ℝ) ≤ Matrix.dotProduct v v from
    Finset.sum_nonneg fun i _ => mul_self_nonneg (v i)) with h | h
  · exact h
  · exact absurd (Matrix.dotProduct_self_eq_zero.mp h.symm) hv

/-- Minimality: every eigenvalue of the operator matrix is at least the
closed-form ground energy. -/
theorem min_eigen (t : ℝ) (v : Fin 4 → ℝ) (hv : v ≠ 0)
    (heig : (hamMatrix qubit_op).mulVec v = t • v) : exactEnergy qubit_op ≤ t := by
  have h1 := psd v
  rw [heig, Matrix.dotProduct_smul, smul_eq_mul] at h1
  exact le_of_mul_le_mul_right h1 (dot_self_pos v hv)

/-! ### The variational minimum equals the exact ground energy -/

theorem rayleigh_lower (x : ℝ) (hx : x ∈ rayleighSet qubit_op) :
    exactEnergy qubit_op ≤ x := by
  obtain ⟨v, hv1, hx⟩ := hx
  have h := psd v
  rw [hv1, mul_one] at h
  rw [hx]
  exact h

theorem rayleigh_mem : exactEnergy qubit_op ∈ rayleighSet qubit_op := by
  set nrm : ℝ := Matrix.dotProduct groundVec groundVec with hnrm
  have hpos : 0 < nrm := dot_self_pos groundVec groundVec_ne
  set c : ℝ := (Real.sqrt nrm)⁻¹ with hc
  have hsqrtpos : 0 < Real.sqrt nrm := Real.sqrt_pos.mpr hpos
  have hc2 : c ^ 2 * nrm = 1 := by
    rw [hc, inv_pow, ← Real.sq_sqrt hpos.le]
    field_simp
  refine ⟨c • groundVec, ?_, ?_⟩
  · rw [Matrix.smul_dotProduct, Matrix.dotProduct_smul, smul_eq_mul, smul_eq_mul]
    rw [← hnrm]
    nlinarith [hc2]
  · rw [Matrix.mulVec_smul, eigen_eq]
    rw [Matrix.smul_dotProduct, Matrix.dotProduct_smul, smul_smul, smul_eq_mul]
    rw [Matrix.dotProduct_smul, smul_eq_mul, ← hnrm]
    linear_combination (-(exactEnergy qubit_op)) * hc2

/-- The infimum of the Rayleigh quotients is attained at the ground state and
equals the exact minimum eigenvalue. -/
theorem vqe_eq_exact : vqeEnergy qubit_op = exactEnergy qubit_op :=
  IsLeast.csInf_eq ⟨rayleigh_mem, rayleigh_lower⟩

/-! ### Evaluating the pipeline on the notebook's configurations -/

theorem resolve_ee : resolve aquaRegistry eeCfg = Except.ok eeRes := by decide

theorem resolve_vqe : resolve aquaRegistry vqeCfg = Except.ok vqeRes := by decide

theorem resolve_vqe_nobackend :
    resolve aquaRegistry vqeCfgNoBackend = Except.ok vqeResNoBackend := by decide

theorem assemble_vqe_nobackend :
    assemble aquaRegistry vqeResNoBackend = Except.ok vqeRootNoBackend := by decide

theorem run_ee : run_algorithm eeCfg ⟨qubit_op⟩ =
    Except.ok [("energy", exactEnergy qubit_op)] := rfl

theorem run_vqe : run_algorithm vqeCfg ⟨qubit_op⟩ =
    Except.ok [("energy", vqeEnergy qubit_op)] := rfl

theorem run_vqe_nobackend : run_algorithm vqeCfgNoBackend ⟨qubit_op⟩ =
    Except.error (RunError.missingExecutionContext "VQE") := rfl

/-! ### The result contract -/

/-- A successful `normalize` passes the raw record through unchanged and
guarantees every core field is present. -/
theorem normalize_ok_complete (core : List String) (raw r : ResultRecord)
    (h : normalize core raw = Except.ok r) :
    r = raw ∧ ∀ f ∈ core, (List.lookup f r).isSome = true := by
  unfold normalize at h
  cases hf : core.find? (fun f => (List.lookup f raw).isNone) with
  | some f => rw [hf] at h; exact absurd h (by simp)
  | none =>
    rw [hf] at h
    have hr : r = raw := by
      injection h with h1
      exact h1.symm
    subst hr
    refine ⟨rfl, fun f hfm => ?_⟩
    have := List.find?_eq_none.mp hf f hfm
    cases hlook : List.lookup f r with
    | none => rw [hlook] at this; simp at this
    | some v => simp

/-- A successful run contains every core field of the resolved problem
type. -/
theorem run_ok_complete (cfg : Configuration) (input : EnergyInput) (r : ResultRecord)
    (h : run_algorithm cfg input = Except.ok r) :
    ∀ res, resolve aquaRegistry cfg = Except.ok res →
      ∀ f ∈ coreFieldsOf res.problem.name, (List.lookup f r).isSome = true := by
  intro res hres f hf
  unfold run_algorithm runWith at h
  rw [hres] at h
  dsimp only at h
  cases hasm : assemble aquaRegistry res with
  | error e => rw [hasm] at h; exact absurd h (by simp)
  | ok root =>
    rw [hasm] at h
    dsimp only at h
    unfold facadeRun at h
    split at h
    · exact absurd h (by simp)
    · cases hsem : aquaSem root.name root.params root.deps input root.backend with
      | error msg => rw [hsem] at h; exact absurd h (by simp)
      | ok raw =>
        rw [hsem] at h
        exact (normalize_ok_complete _ _ _ h).2 f hf

/-- A quantum-family root without a resolved execution context fails with
`MissingExecutionContextError` naming the algorithm. -/
theorem missing_context_general (cfg : Configuration) (input : EnergyInput)
    (res : Resolution) (root : AssembledAlgorithm)
    (hres : resolve aquaRegistry cfg = Except.ok res)
    (hasm : assemble aquaRegistry res = Except.ok root)
    (hq : root.requiresContext = true) (hb : root.backend = none) :
    run_algorithm cfg input = Except.error (RunError.missingExecutionContext root.name) := by
  unfold run_algorithm runWith
  rw [hres]
  dsimp only
  rw [hasm]
  dsimp only
  unfold facadeRun
  rw [if_pos ⟨hq, hb⟩]

/-! ### Omissible sections and parameter merging -/

theorem sectionsOf_append (k : Kind) (cfg cfg2 : Configuration) :
    sectionsOf k (cfg ++ cfg2) = sectionsOf k cfg ++ sectionsOf k cfg2 := by
  induction cfg with
  | nil => rfl
  | cons hd tl ih =>
    by_cases h : hd.kind = k <;> simp [sectionsOf, h, ih]

theorem resolveOpt_extend (reg : Registry) (cfg : Configuration) (k : Kind) (n : String)
    (hd : defaultNameOf k = some n) (hs : sectionsOf k cfg = []) (k2 : Kind) :
    resolveOpt reg (cfg ++ [⟨k, some n, []⟩]) k2 = resolveOpt reg cfg k2 := by
  by_cases hk : k2 = k
  · subst hk
    unfold resolveOpt
    rw [sectionsOf_append, hs]
    simp [sectionsOf, hd]
  · unfold resolveOpt
    rw [sectionsOf_append]
    have h2 : sectionsOf k2 [(⟨k, some n, []⟩ : ConfigSection)] = [] := by
      simp [sectionsOf, Ne.symm hk]
    rw [h2, List.append_nil]

theorem resolveDepKind_extend (reg : Registry) (cfg : Configuration) (k : Kind) (n : String)
    (hd : defaultNameOf k = some n) (hs : sectionsOf k cfg = []) (k2 : Kind) :
    resolveDepKind reg (cfg ++ [⟨k, some n, []⟩]) k2 = resolveDepKind reg cfg k2 := by
  unfold resolveDepKind
  rw [resolveOpt_extend reg cfg k n hd hs k2]

theorem resolveDeps_extend (reg : Registry) (cfg : Configuration) (k : Kind) (n : String)
    (hd : defaultNameOf k = some n) (hs : sectionsOf k cfg = []) (ks : List Kind) :
    resolveDeps reg (cfg ++ [⟨k, some n, []⟩]) ks = resolveDeps reg cfg ks := by
  induction ks with
  | nil => rfl
  | cons k2 ks2 ih =>
    unfold resolveDeps
    rw [resolveDepKind_extend reg cfg k n hd hs k2, ih]

theorem resolveAlg_extend (reg : Registry) (cfg : Configuration) (k : Kind) (n : String)
    (hd : defaultNameOf k = some n) (hs : sectionsOf k cfg = []) :
    resolveAlg reg (cfg ++ [⟨k, some n, []⟩]) = resolveAlg reg cfg := by
  have hka : k ≠ Kind.algorithm := by
    intro h; subst h; simp [defaultNameOf] at hd
  unfold resolveAlg
  rw [sectionsOf_append]
  have h2 : sectionsOf Kind.algorithm [(⟨k, some n, []⟩ : ConfigSection)] = [] := by
    simp [sectionsOf, hka]
  rw [h2, List.append_nil]

/-- Omitting an omissible section resolves identically to supplying the
section's registry default explicitly. -/
theorem resolve_extend (reg : Registry) (cfg : Configuration) (k : Kind) (n : String)
    (hd : defaultNameOf k = some n) (hs : sectionsOf k cfg = []) :
    resolve reg (cfg ++ [⟨k, some n, []⟩]) = resolve reg cfg := by
  have h1 : resolveDepKind reg (cfg ++ [⟨k, some n, []⟩]) = resolveDepKind reg cfg :=
    funext (resolveDepKind_extend reg cfg k n hd hs)
  have h2 : resolveDeps reg (cfg ++ [⟨k, some n, []⟩]) = resolveDeps reg cfg :=
    funext (resolveDeps_extend reg cfg k n hd hs)
  have h3 : resolveOpt reg (cfg ++ [⟨k, some n, []⟩]) = resolveOpt reg cfg :=
    funext (resolveOpt_extend reg cfg k n hd hs)
  unfold resolve
  rw [h1, h2, h3, resolveAlg_extend reg cfg k n hd hs]

theorem lookup_append (key : String) (l1 l2 : Params) :
    List.lookup key (l1 ++ l2) =
      (List.lookup key l1).orElse fun _ => List.lookup key l2 := by
  induction l1 with
  | nil => simp [List.lookup]
  | cons hd tl ih =>
    rcases hd with ⟨k0, v0⟩
    by_cases h : key == k0
    · simp [List.lookup, h]
    · simp only [List.cons_append, List.lookup,
        show (key == k0) = false by simpa using h]
      exact ih

theorem lookup_filter_of_none (key : String) (sup dflt : Params)
    (hnone : List.lookup key sup = none) :
    List.lookup key (dflt.filter fun kv => (List.lookup kv.1 sup).isNone) =
      List.lookup key dflt := by
  induction dflt with
  | nil => rfl
  | cons hd tl ih =>
    rcases hd with ⟨k1, v1⟩
    by_cases hk : key == k1
    · have hkey : key = k1 := by simpa using hk
      subst hkey
      have hp : (List.lookup key sup).isNone = true := by rw [hnone]; rfl
      simp [List.filter, hp, List.lookup]
    · have hkf : (key == k1) = false := by simpa using hk
      by_cases hp : (List.lookup k1 sup).isNone = true
      · simp only [List.filter, hp]
        simp only [List.lookup, hkf]
        exact ih
      · have hpf : (List.lookup k1 sup).isNone = false := by simpa using hp
        simp only [List.filter, hpf]
        simp only [List.lookup, hkf]
        exact ih

/-- Merged parameters: a supplied value wins, an unset key takes the
default. -/
theorem lookup_mergeParams (key : String) (sup dflt : Params) :
    List.lookup key (mergeParams sup dflt) =
      (List.lookup key sup).orElse fun _ => List.lookup key dflt := by
  unfold mergeParams
  rw [show List.append sup (dflt.filter fun kv => (List.lookup kv.1 sup).isNone) =
    sup ++ (dflt.filter fun kv => (List.lookup kv.1 sup).isNone) from rfl]
  rw [lookup_append]
  cases hsup : List.lookup key sup with
  | some v => rfl
  | none => rw [lookup_filter_of_none key sup dflt hsup]

/-! ## Claims -/

/-- C1: every successful run (declarative or programmatic) yields a
ResultRecord containing the fixed core fields of the resolved problem type
(for an energy problem, the field `energy`); the result contract passes the
raw record through unchanged, so algorithm-specific extras never replace a
core field; in particular both the ExactEigensolver and the VQE results
contain the key `energy`. -/
theorem claim_C1_core_fields :
    (∀ (cfg : Configuration) (input : EnergyInput) (r : ResultRecord),
      run_algorithm cfg input = Except.ok r →
      ∀ res, resolve aquaRegistry cfg = Except.ok res →
        ∀ f ∈ coreFieldsOf res.problem.name, (List.lookup f r).isSome = true) ∧
    (∀ (core : List String) (raw r : ResultRecord),
      normalize core raw = Except.ok r → r = raw) ∧
    (∃ r : ResultRecord, run_algorithm eeCfg ⟨qubit_op⟩ = Except.ok r ∧
      List.lookup "energy" r = some (exactEnergy qubit_op)) ∧
    (∃ r : ResultRecord, run_algorithm vqeCfg ⟨qubit_op⟩ = Except.ok r ∧
      List.lookup "energy" r = some (vqeEnergy qubit_op)) :=
  ⟨run_ok_complete,
   fun core raw r h => (normalize_ok_complete core raw r h).1,
   ⟨[("energy", exactEnergy qubit_op)], run_ee, rfl⟩,
   ⟨[("energy", vqeEnergy qubit_op)], run_vqe, rfl⟩⟩

/-- Witness for C1 at the notebook's ExactEigensolver configuration. -/
theorem claim_C1_witness :
    (List.lookup "energy" [(("energy" : String), exactEnergy qubit_op)]).isSome = true :=
  claim_C1_core_fields.1 eeCfg ⟨qubit_op⟩ [("energy", exactEnergy qubit_op)] run_ee
    eeRes resolve_ee "energy" (by decide)

/-- C2: running `{algorithm: {name: "ExactEigensolver"}}` on the notebook's
two-qubit Hamiltonian yields a ResultRecord whose `energy` field is the
operator's least eigenvalue, which lies within 1e-6 of -1.857275; the
programmatic `ExactEigensolver(qubit_op).run()` returns the same record. -/
theorem claim_C2_exact_energy :
    run_algorithm eeCfg ⟨qubit_op⟩ = Except.ok [("energy", exactEnergy qubit_op)] ∧
    ExactEigensolver.run ⟨qubit_op⟩ = [("energy", exactEnergy qubit_op)] ∧
    |exactEnergy qubit_op + 1.857275| < 0.000001 ∧
    (∃ v : Fin 4 → ℝ, v ≠ 0 ∧ (hamMatrix qubit_op).mulVec v = exactEnergy qubit_op • v) ∧
    (∀ (t : ℝ) (v : Fin 4 → ℝ), v ≠ 0 → (hamMatrix qubit_op).mulVec v = t • v →
      exactEnergy qubit_op ≤ t) :=
  ⟨run_ee, rfl, exactEnergy_near, ⟨groundVec, groundVec_ne, eigen_eq⟩, min_eigen⟩

/-- Witness for C2: the minimality conjunct applied to the concrete ground
eigenvector. -/
theorem claim_C2_witness : exactEnergy qubit_op ≤ exactEnergy qubit_op :=
  claim_C2_exact_energy.2.2.2.2 (exactEnergy qubit_op) groundVec groundVec_ne eigen_eq

/-- C3: the declarative entry point (run_algorithm through the registry) and
the programmatic entry point (constructing the components directly and calling
run) funnel into the same facade and produce the same result record for the
same input, for both the ExactEigensolver and the VQE workflows. -/
theorem claim_C3_duality :
    run_algorithm eeCfg ⟨qubit_op⟩ = Except.ok (ExactEigensolver.run ⟨qubit_op⟩) ∧
    (∃ r : ResultRecord, run_algorithm vqeCfg ⟨qubit_op⟩ = Except.ok r ∧
      (VQE.mk qubit_op ⟨qubit_op.num_qubits, 3, "linear"⟩ ⟨1000⟩).run
        (BackendArg.raw "statevector_simulator") = Except.ok r) :=
  ⟨rfl, ⟨[("energy", vqeEnergy qubit_op)], rfl, rfl⟩⟩

/-- C4: the VQE configuration of the notebook converges to an `energy` within
1e-4 of the exact ExactEigensolver result: the idealized variational minimum
equals the exact ground energy. -/
theorem claim_C4_vqe_convergence :
    run_algorithm vqeCfg ⟨qubit_op⟩ = Except.ok [("energy", vqeEnergy qubit_op)] ∧
    vqeEnergy qubit_op = exactEnergy qubit_op ∧
    |vqeEnergy qubit_op - exactEnergy qubit_op| < 0.0001 :=
  ⟨run_vqe, vqe_eq_exact, by rw [vqe_eq_exact, sub_self, abs_zero]; norm_num⟩

/-- C5: the top-level run either returns a complete ResultRecord (containing
the problem type's core fields) or fails with one of the eight declared
RunError kinds. -/
theorem claim_C5_error_taxonomy :
    ∀ (cfg : Configuration) (input : EnergyInput),
      (∃ r : ResultRecord, run_algorithm cfg input = Except.ok r ∧
        ∀ res, resolve aquaRegistry cfg = Except.ok res →
          ∀ f ∈ coreFieldsOf res.problem.name, (List.lookup f r).isSome = true) ∨
      (∃ e : RunError, run_algorithm cfg input = Except.error e) := by
  intro cfg input
  cases h : run_algorithm cfg input with
  | ok r => exact Or.inl ⟨r, rfl, run_ok_complete cfg input r h⟩
  | error e => exact Or.inr ⟨e, rfl⟩

/-- Witness for C5 at the notebook's ExactEigensolver configuration. -/
theorem claim_C5_witness :
    (∃ r : ResultRecord, run_algorithm eeCfg ⟨qubit_op⟩ = Except.ok r ∧
      ∀ res, resolve aquaRegistry eeCfg = Except.ok res →
        ∀ f ∈ coreFieldsOf res.problem.name, (List.lookup f r).isSome = true) ∨
    (∃ e : RunError, run_algorithm eeCfg ⟨qubit_op⟩ = Except.error e) :=
  claim_C5_error_taxonomy eeCfg ⟨qubit_op⟩

/-- C6: a configuration whose root is a quantum-family algorithm and for which
no execution context was resolved fails with MissingExecutionContextError
naming the algorithm (concretely: the notebook's VQE configuration without its
backend section), while the classical ExactEigensolver runs successfully
without any execution context. -/
theorem claim_C6_missing_context :
    (∀ (cfg : Configuration) (input : EnergyInput) (res : Resolution)
        (root : AssembledAlgorithm),
      resolve aquaRegistry cfg = Except.ok res →
      assemble aquaRegistry res = Except.ok root →
      root.requiresContext = true → root.backend = none →
      run_algorithm cfg input = Except.error (RunError.missingExecutionContext root.name)) ∧
    run_algorithm vqeCfgNoBackend ⟨qubit_op⟩ =
      Except.error (RunError.missingExecutionContext "VQE") ∧
    run_algorithm eeCfg ⟨qubit_op⟩ = Except.ok [("energy", exactEnergy qubit_op)] :=
  ⟨missing_context_general, run_vqe_nobackend, run_ee⟩

/-- Witness for C6: the general statement applied to the concrete backendless
VQE configuration. -/
theorem claim_C6_witness :
    run_algorithm vqeCfgNoBackend ⟨qubit_op⟩ =
      Except.error (RunError.missingExecutionContext vqeRootNoBackend.name) :=
  claim_C6_missing_context.1 vqeCfgNoBackend ⟨qubit_op⟩ vqeResNoBackend vqeRootNoBackend
    resolve_vqe_nobackend assemble_vqe_nobackend rfl rfl

/-- C7: a configuration omitting an omissible section (such as `problem`,
defaulting to `energy`) resolves identically to the same configuration with
that section explicitly set to its registry default; in merged parameters the
supplied values win and unset keys take the registry defaults. -/
theorem claim_C7_default_sections :
    (∀ (reg : Registry) (cfg : Configuration) (k : Kind) (n : String),
      defaultNameOf k = some n → sectionsOf k cfg = [] →
      resolve reg (cfg ++ [⟨k, some n, []⟩]) = resolve reg cfg) ∧
    (∀ (key : String) (supplied dflts : Params),
      List.lookup key (mergeParams supplied dflts) =
        (List.lookup key supplied).orElse fun _ => List.lookup key dflts) :=
  ⟨resolve_extend, lookup_mergeParams⟩

/-- Witness for C7: omitting the `problem` section of the notebook's
ExactEigensolver configuration is the same as supplying `problem = energy`. -/
theorem claim_C7_witness :
    resolve aquaRegistry (eeCfg ++ [⟨Kind.problem, some "energy", []⟩]) =
      resolve aquaRegistry eeCfg :=
  claim_C7_default_sections.1 aquaRegistry eeCfg Kind.problem "energy" rfl rfl

/-- C8: the registry is built write-once at initialization (registering the
entry list from the empty registry succeeds and yields the frozen registry),
and resolving or assembling the same configuration twice against the frozen
registry yields components with equal parameters. -/
theorem claim_C8_idempotent_frozen :
    buildAquaRegistry = Except.ok aquaRegistry ∧
    (∀ (cfg : Configuration) (r1 r2 : Resolution),
      resolve aquaRegistry cfg = Except.ok r1 → resolve aquaRegistry cfg = Except.ok r2 →
      r1.algorithm.params = r2.algorithm.params ∧ r1 = r2) ∧
    (∀ (res : Resolution) (a1 a2 : AssembledAlgorithm),
      assemble aquaRegistry res = Except.ok a1 → assemble aquaRegistry res = Except.ok a2 →
      a1.params = a2.params ∧ a1 = a2) := by
  refine ⟨by decide, ?_, ?_⟩
  · intro cfg r1 r2 h1 h2
    have h : r1 = r2 := Except.ok.inj (h1.symm.trans h2)
    exact ⟨by rw [h], h⟩
  · intro res a1 a2 h1 h2
    have h : a1 = a2 := Except.ok.inj (h1.symm.trans h2)
    exact ⟨by rw [h], h⟩

/-- Witness for C8: two resolutions of the ExactEigensolver configuration have
equal parameters. -/
theorem claim_C8_witness :
    eeRes.algorithm.params = eeRes.algorithm.params ∧ eeRes = eeRes :=
  claim_C8_idempotent_frozen.2.1 eeCfg eeRes eeRes resolve_ee resolve_ee

/-- C9: the runner forwards the input payload to the algorithm untouched and
never inspects it: precomposing the algorithm semantics with any payload
transformation is the same as transforming the payload before the run, for
every configuration and registry. -/
theorem claim_C9_payload_opaque :
    ∀ (α β : Type) (f : α → β) (sem : AlgSemantics β) (reg : Registry)
      (cfg : Configuration) (input : α),
      runWith (fun name params deps a ctx => sem name params deps (f a) ctx) reg cfg input =
        runWith sem reg cfg (f input) :=
  fun _ _ _ _ _ _ _ => rfl

/-- C10: passing a raw backend to a quantum algorithm's run is the same as
passing it wrapped in a QuantumInstance with the default transpiler pass
manager, and on the statevector simulator both compute the VQE energy. -/
theorem claim_C10_backend_wrapping :
    ∀ (v : VQE) (b : String),
      v.run (BackendArg.raw b) = v.run (BackendArg.qinst ⟨b, defaultPassManager⟩) ∧
      v.run (BackendArg.raw "statevector_simulator") =
        Except.ok [("energy", vqeEnergy v.operator)] :=
  fun _ _ => ⟨rfl, rfl⟩

end Aqua
